import Mathlib

/-!
Verification of `notify_by_webex_teams.go` (version 0.5), a CLI client that
posts messages, file uploads and card attachments to Webex rooms.

The Go program is shallowly embedded: the network is a list of pending
responses consumed in order, every HTTP call issued is recorded in a trace,
`log.Fatal` is an explicit `fatal` outcome, and `os.Exit(0)` is `exit0`.
Response bodies arrive already split into "well-formed JSON or not"
(`Option Json`); the struct decoding that `json.Unmarshal` performs on top
of a well-formed value is embedded field by field for the fields the
program reads.  Request bodies that the program builds by string
concatenation are kept as strings, and a small JSON grammar (`parseJsonStr`)
is used to state properties of those concrete strings.
-/

namespace Webex

/-- JSON values, as needed for the request/response bodies the program
builds and consumes.  Numbers are restricted to integers, which covers
every payload the program itself constructs. -/
inductive Json where
  | null : Json
  | bool (b : Bool) : Json
  | num (n : Int) : Json
  | str (s : String) : Json
  | arr (xs : List Json) : Json
  | obj (fields : List (String × Json)) : Json

/-- The two message-service endpoints (`roomsURL`, `messagesURL` constants
of the source). -/
def roomsURL : String := "https://api.ciscospark.com/v1/rooms"

/-- Endpoint for message creation and deletion. -/
def messagesURL : String := "https://api.ciscospark.com/v1/messages"

/-! ## Standard-input assembly (`main`, lines 462-478)

`bufio.Reader.ReadString(sep)` returns the bytes up to and including the
first separator; when no separator remains it returns the leftover bytes
together with `io.EOF`.  The loop trims a trailing `"\r"`, then a trailing
`"\r\n"`, appends the line plus `"\n"` to the global `markdownMsg` (which
already holds the `-m` value), and stops after the `io.EOF` read. -/

/-- Go `bufio.Reader.ReadString sep`: `(line, rest, eof)` where `line`
includes the separator when found, and `eof` is true when the separator
was not found before end of input. -/
def readString (sep : Char) : List Char → List Char × List Char × Bool
  | [] => ([], [], true)
  | c :: cs =>
    if c = sep then ([c], cs, false)
    else
      let r := readString sep cs
      (c :: r.1, r.2.1, r.2.2)

/-- Go `strings.TrimSuffix`: remove one copy of `suf` when it is a suffix,
else return the list unchanged. -/
def trimGoSuffix (l suf : List Char) : List Char :=
  if suf.isSuffixOf l then l.take (l.length - suf.length) else l

/-- The `-i` reading loop of `main`: reads separator-terminated chunks,
trims a trailing `"\r"`, then a trailing `"\r\n"`, and appends
chunk + `"\n"` to the accumulator, stopping after the read that hits end
of input.  The loop consumes at least one character per iteration before
the final one, so fuel `input.length + 1` always suffices. -/
def stdinLoopF (fuel : Nat) (sep : Char) (acc : List Char) (input : List Char) : List Char :=
  match fuel with
  | 0 => acc
  | fuel' + 1 =>
    let r := readString sep input
    let line := trimGoSuffix (trimGoSuffix r.1 ['\r']) ['\r', '\n']
    let acc2 := acc ++ line ++ ['\n']
    if r.2.2 then acc2
    else stdinLoopF fuel' sep acc2 r.2.1

/-- The `runtime.GOOS`-dependent separator: `'\r'` on darwin, `'\n'` elsewhere. -/
def lineSeparator (goos : String) : Char :=
  if goos = "darwin" then '\r' else '\n'

/-- The markdown body `main` hands to the dispatcher: the `-m` value, with
the standard-input loop appended onto it when `-i` was given. -/
def assembleMarkdown (useStdIn : Bool) (markdownMsg : String) (goos : String)
    (stdin : String) : String :=
  if useStdIn then
    String.mk (stdinLoopF (stdin.length + 1) (lineSeparator goos) markdownMsg.data stdin.data)
  else markdownMsg

/-! ## Network model

Every HTTP interaction goes through `webexTeamsRequest` (or, for the
upload, a directly built `http.Client.Do`).  The environment is a list of
pending `NetResult`s consumed in order; each issued request is recorded as
an `HttpCall`.  A response body is `none` when the wire bytes are not
well-formed JSON (then any `json.Unmarshal` of it errors), otherwise the
parsed JSON value. -/

/-- Outcome of one HTTP round trip: a transport error from `client.Do`,
or a response with a status code and a body. -/
inductive NetResult where
  | transportError : NetResult
  | ok (status : Nat) (body : Option Json) : NetResult

/-- The multipart form body built by `newfileUploadRequest`: the file part
(header and copied bytes) and the extra string fields. `openFailed`
records that `os.Open` failed (the error is only logged there). -/
structure MultipartData where
  fileHeader : List (String × String)
  fileContent : String
  fields : List (String × String)
  openFailed : Bool
  deriving DecidableEq, Repr

/-- A request body: absent, a JSON string, or a multipart form. -/
inductive ReqBody where
  | empty : ReqBody
  | jsonBody (s : String) : ReqBody
  | multipartBody (m : MultipartData) : ReqBody
  deriving DecidableEq, Repr

/-- One issued HTTP call, as recorded in the run trace. -/
structure HttpCall where
  method : String
  url : String
  query : List (String × String)
  body : ReqBody
  deriving DecidableEq, Repr

/-! ## `encoding/json` struct decoding for the fields the program reads

`roomsResp` items carry more fields (type, isLocked, timestamps,
creatorId) that the program never reads; their decoding is outside this
embedding, and response bodies in the claims carry only the read fields. -/

/-- Last-wins key lookup in a JSON object (duplicate keys: the later value
overwrites, as `encoding/json` does). -/
def jLookup (fields : List (String × Json)) (key : String) : Option Json :=
  fields.foldl (fun acc p => if p.1 = key then some p.2 else acc) none

/-- ASCII case folding of one character, as a code point. -/
def asciiLowerN (c : Char) : Nat :=
  if 65 ≤ c.toNat ∧ c.toNat ≤ 90 then c.toNat + 32 else c.toNat

/-- Case-insensitive last-wins lookup, for Go struct fields without a
`json:` tag (`SparkRoom`), where keys match field names
case-insensitively (ASCII folding suffices for the names in play). -/
def jLookupCI (fields : List (String × Json)) (key : String) : Option Json :=
  fields.foldl
    (fun acc p =>
      if p.1.data.map asciiLowerN = key.data.map asciiLowerN then some p.2 else acc)
    none

/-- Decode one string-typed struct field: absent or `null` leaves the zero
value `""`, a JSON string is taken, any other type is an `Unmarshal` error. -/
def jStringField (fields : List (String × Json)) (key : String) : Option String :=
  match jLookup fields key with
  | none => some ""
  | some Json.null => some ""
  | some (Json.str s) => some s
  | some _ => none

/-- One item of `roomsResp`, restricted to the fields the program reads. -/
structure RoomItem where
  id : String
  title : String
  teamID : String
  deriving DecidableEq, Repr

/-- Decode one `roomsResp` item. -/
def decodeRoomItem : Json → Option RoomItem
  | Json.null => some ⟨"", "", ""⟩
  | Json.obj fs => do
    let id ← jStringField fs "id"
    let title ← jStringField fs "title"
    let teamID ← jStringField fs "teamId"
    some ⟨id, title, teamID⟩
  | _ => none

/-- Embeds `json.Unmarshal(body, &rr)` for `rr : roomsResp`: `none` body (ill
formed JSON) errors; `null` or a missing `items` key leaves the zero
value (no items); otherwise `items` must be an array of items. -/
def decodeRoomsResp : Option Json → Option (List RoomItem)
  | none => none
  | some Json.null => some []
  | some (Json.obj fs) =>
    match jLookup fs "items" with
    | none => some []
    | some Json.null => some []
    | some (Json.arr xs) => xs.mapM decodeRoomItem
    | some _ => none
  | some _ => none

/-- The `Message` record, restricted to the fields the program reads. -/
structure MessageRec where
  id : String
  roomId : String
  markdown : String
  deriving DecidableEq, Repr

/-- Embeds `json.Unmarshal(body, &m)` for `m : Message`. -/
def decodeMessage : Option Json → Option MessageRec
  | none => none
  | some Json.null => some ⟨"", "", ""⟩
  | some (Json.obj fs) => do
    let id ← jStringField fs "id"
    let roomId ← jStringField fs "roomId"
    let markdown ← jStringField fs "markdown"
    some ⟨id, roomId, markdown⟩
  | some _ => none

/-- Embeds `json.Unmarshal(body, &nr)` for `nr : SparkRoom`, of which `createRoom`
returns only `nr.Id` (untagged field, matched case-insensitively). -/
def decodeSparkRoomId : Option Json → Option String
  | none => none
  | some Json.null => some ""
  | some (Json.obj fs) =>
    match jLookupCI fs "id" with
    | none => some ""
    | some Json.null => some ""
    | some (Json.str s) => some s
    | some _ => none
  | some _ => none

/-! ## Request bodies the program builds -/

/-- One character of `encoding/json` string escaping (with the encoder's
default HTML escaping of angle brackets and ampersand). -/
def goEscapeChar (c : Char) : List Char :=
  if c = '"' then ['\\', '"']
  else if c = '\\' then ['\\', '\\']
  else if c = '\n' then ['\\', 'n']
  else if c = '\r' then ['\\', 'r']
  else if c = '\t' then ['\\', 't']
  else if c = '<' then '\\' :: "u003c".data
  else if c = '>' then '\\' :: "u003e".data
  else if c = '&' then '\\' :: "u0026".data
  else [c]

/-- `encoding/json` escaping of a whole string. -/
def goEscape (s : String) : String := String.mk (s.data.flatMap goEscapeChar)

/-- Embeds `json.NewEncoder(b).Encode(&NewSparkRoom)` with `TeamID := teamID`, `Title := roomTitle`:
compact JSON in struct-field order plus the encoder's trailing newline. -/
def newSparkRoomJSON (teamID roomTitle : String) : String :=
  "\x7b\"teamId\":\"" ++ goEscape teamID ++ "\",\"title\":\"" ++ goEscape roomTitle ++ "\"\x7d\n"

/-- Embeds `json.NewEncoder(b).Encode(&NewSparkMessage)` with `RoomID := roomID`, `Markdown := messageText`. -/
def newSparkMessageJSON (roomID messageText : String) : String :=
  "\x7b\"roomId\":\"" ++ goEscape roomID ++ "\",\"markdown\":\"" ++ goEscape messageText ++ "\"\x7d\n"

/-- The body `createMessageAndAttachmentsToRoom` assembles by raw string
concatenation (`bytes.Buffer.WriteString` calls, lines 133-143): the
`-m` text, room id and `-a` payload are spliced in verbatim, unescaped
and uninterpreted. -/
def createMessageAndAttachmentsBody (markdownMsg roomID attachment : String) : String :=
  "\x7b\"roomId\": \"" ++ roomID ++ "\", \"markdown\": \"" ++ markdownMsg ++
    "\", \"attachments\": [" ++ attachment ++ "]\x7d"

/-! ## The embedded operations

Each operation returns its outcome, the calls it issued (in order), and
the remaining pending responses.  `FnResult.fatal` is `log.Fatal` inside
the operation, `FnResult.err` an error returned to the caller. -/

/-- Outcome of one embedded Go function. -/
inductive FnResult (α : Type) where
  | fatal : FnResult α
  | err (msg : String) : FnResult α
  | ok (a : α) : FnResult α
  deriving DecidableEq, Repr

/-- Consume the next pending response; an exhausted environment behaves
like a transport error. -/
def takeResp : List NetResult → NetResult × List NetResult
  | [] => (NetResult.transportError, [])
  | r :: w => (r, w)

/-- Embeds `getTeamIDByName` (lines 310-338): list group rooms, scan for the first
item whose title equals the team name and return its `teamId`; transport
and unmarshal errors are `log.Fatal`; no match returns an error. -/
def getTeamIDByName (name : String) (w : List NetResult) :
    FnResult String × List HttpCall × List NetResult :=
  let call : HttpCall := ⟨"GET", roomsURL, [("type", "group")], ReqBody.empty⟩
  let (resp, w') := takeResp w
  match resp with
  | NetResult.transportError => (FnResult.fatal, [call], w')
  | NetResult.ok _ body =>
    match decodeRoomsResp body with
    | none => (FnResult.fatal, [call], w')
    | some items =>
      match items.find? (fun v => v.title == name) with
      | some v => (FnResult.ok v.teamID, [call], w')
      | none => (FnResult.err ("No room with name: " ++ name ++ " was found\n"), [call], w')

/-- Embeds `createRoom` (lines 376-406): POST the new room JSON; transport error
is `log.Fatal`; an unmarshal error is returned to the caller together
with the zero `Id`; otherwise the decoded `Id` is returned. -/
def createRoom (roomTitle teamID : String) (w : List NetResult) :
    FnResult String × List HttpCall × List NetResult :=
  let call : HttpCall := ⟨"POST", roomsURL, [], ReqBody.jsonBody (newSparkRoomJSON teamID roomTitle)⟩
  let (resp, w') := takeResp w
  match resp with
  | NetResult.transportError => (FnResult.fatal, [call], w')
  | NetResult.ok _ body =>
    match decodeSparkRoomId body with
    | none => (FnResult.err "json unmarshal error", [call], w')
    | some id => (FnResult.ok id, [call], w')

/-- Embeds `createRoomAndGetRoom` (lines 340-374): list the rooms of the team,
return the first item whose title equals the room name; when none
matches, create the room and return the created id (`log.Fatal` when
`createRoom` fails). -/
def createRoomAndGetRoom (teamID name : String) (w : List NetResult) :
    FnResult String × List HttpCall × List NetResult :=
  let call : HttpCall := ⟨"GET", roomsURL, [("teamId", teamID), ("type", "group")], ReqBody.empty⟩
  let (resp, w') := takeResp w
  match resp with
  | NetResult.transportError => (FnResult.fatal, [call], w')
  | NetResult.ok _ body =>
    match decodeRoomsResp body with
    | none => (FnResult.fatal, [call], w')
    | some items =>
      match items.find? (fun v => v.title == name) with
      | some v => (FnResult.ok v.id, [call], w')
      | none =>
        match createRoom name teamID w' with
        | (FnResult.ok id, calls, w2) => (FnResult.ok id, call :: calls, w2)
        | (_, calls, w2) => (FnResult.fatal, call :: calls, w2)

/-- Embeds `createPngFormFile` (lines 225-230): the MIME header of the file part,
with the caller's field name and file name spliced into the
`Content-Disposition` and a hard-coded `Content-Type`. -/
def createPngFormFile (fieldname filename : String) : List (String × String) :=
  [("Content-Disposition",
    "form-data; name=\"" ++ fieldname ++ "\"; filename=\"" ++ filename ++ "\""),
   ("Content-Type", "image/png;")]

/-- The request `newfileUploadRequest` returns: target URL plus multipart data. -/
structure UploadRequest where
  url : String
  data : MultipartData
  deriving DecidableEq, Repr

/-- Embeds `newfileUploadRequest` (lines 233-270).  Every failure inside it
(`createPngFormFile`, `os.Open`, `io.Copy`, `WriteField`) is only
`log.Println`-ed, never returned: the function always yields a request,
with an empty file part when the file could not be opened, and the
returned error is the `nil` of the final successful `http.NewRequest`.
The extra params are written in the fixed order `roomId`, `markdown`,
`roomType` (Go map iteration order is unspecified; no claim depends on it). -/
def newfileUploadRequest (uri : String) (params : List (String × String))
    (fieldname uploadFile : String) (fs : String → Option String) : UploadRequest :=
  { url := uri
  , data :=
    { fileHeader := createPngFormFile fieldname uploadFile
    , fileContent := (fs uploadFile).getD ""
    , fields := params
    , openFailed := (fs uploadFile).isNone } }

/-- Embeds `createMessageAndUploadToRoom` (lines 169-223): build the multipart
request (which never fails), POST it; a transport error or an unmarshal
error of the response is `log.Fatal`; on success the function returns
`("", nil)`. -/
def createMessageAndUploadToRoom (markdownMsg roomID uploadFile : String)
    (fs : String → Option String) (w : List NetResult) :
    FnResult String × List HttpCall × List NetResult :=
  let req := newfileUploadRequest messagesURL
    [("roomId", roomID), ("markdown", markdownMsg), ("roomType", "group")] "files" uploadFile fs
  let call : HttpCall := ⟨"POST", req.url, [], ReqBody.multipartBody req.data⟩
  let (resp, w') := takeResp w
  match resp with
  | NetResult.transportError => (FnResult.fatal, [call], w')
  | NetResult.ok _ body =>
    match decodeMessage body with
    | none => (FnResult.fatal, [call], w')
    | some _ => (FnResult.ok "", [call], w')

/-- Embeds `createMessageAndAttachmentsToRoom` (lines 131-167): POST the spliced
JSON body; a transport error is returned to the caller; an unmarshal
error of the response is `log.Fatal`; on success returns `("", nil)`. -/
def createMessageAndAttachmentsToRoom (markdownMsg roomID attachment : String)
    (w : List NetResult) : FnResult String × List HttpCall × List NetResult :=
  let call : HttpCall :=
    ⟨"POST", messagesURL, [], ReqBody.jsonBody (createMessageAndAttachmentsBody markdownMsg roomID attachment)⟩
  let (resp, w') := takeResp w
  match resp with
  | NetResult.transportError => (FnResult.err "request error", [call], w')
  | NetResult.ok _ body =>
    match decodeMessage body with
    | none => (FnResult.fatal, [call], w')
    | some _ => (FnResult.ok "", [call], w')

/-- Embeds `createMessageToRoom` (lines 408-443): POST the encoded message JSON;
a transport error is returned; an unmarshal error of the response is
`log.Fatal`; on success returns `("", nil)`. -/
def createMessageToRoom (messageText roomID : String) (w : List NetResult) :
    FnResult String × List HttpCall × List NetResult :=
  let call : HttpCall :=
    ⟨"POST", messagesURL, [], ReqBody.jsonBody (newSparkMessageJSON roomID messageText)⟩
  let (resp, w') := takeResp w
  match resp with
  | NetResult.transportError => (FnResult.err "request error", [call], w')
  | NetResult.ok _ body =>
    match decodeMessage body with
    | none => (FnResult.fatal, [call], w')
    | some _ => (FnResult.ok "", [call], w')

/-- Embeds `deleteMessage` (lines 445-457): one DELETE on `messagesURL/<id>`;
a transport error is returned; the response body is read but never
parsed, so any response at all is success. -/
def deleteMessage (messageID : String) (w : List NetResult) :
    FnResult Unit × List HttpCall × List NetResult :=
  let call : HttpCall := ⟨"DELETE", messagesURL ++ "/" ++ messageID, [], ReqBody.empty⟩
  let (resp, w') := takeResp w
  match resp with
  | NetResult.transportError => (FnResult.err "request error", [call], w')
  | NetResult.ok _ _ => (FnResult.ok (), [call], w')

/-! ## `main` (lines 459-526) -/

/-- The command-line flags registered in `init` (lines 118-129), with
their default values. -/
structure Flags where
  apiToken : String := ""
  teamName : String := "Developer-Team"
  roomName : String := "Room1"
  uploadFile : String := ""
  markdownMsg : String := ""
  proxyString : String := ""
  deleteMessageId : String := ""
  cardAttachment : String := ""
  showVersion : Bool := false
  useStdIn : Bool := false
  deriving DecidableEq, Repr

/-- The flag names `init` registers with the `flag` package, with their
kinds, in registration order. -/
def registeredFlags : List (String × String) :=
  [("T", "string"), ("t", "string"), ("r", "string"), ("f", "string"),
   ("m", "string"), ("p", "string"), ("d", "string"), ("a", "string"),
   ("V", "bool"), ("i", "bool")]

/-- How the process ends: `os.Exit(0)`, `log.Fatal`, or falling off the
end of `main`. -/
inductive RunResult where
  | exit0 : RunResult
  | fatal : RunResult
  | finished : RunResult
  deriving DecidableEq, Repr

/-- The whole run of `main`: assemble the markdown body (stdin first),
then in order: `-V` exits, non-empty `-d` dispatches exactly the deletion,
otherwise team resolution, room resolution, and exactly one of the three
creation dispatches (`-a` before `-f` before plain). Every returned error
is `log.Fatal`. Yields the final result and the trace of issued calls. -/
def mainRun (fl : Flags) (goos : String) (stdin : String)
    (fs : String → Option String) (w : List NetResult) : RunResult × List HttpCall :=
  let md := assembleMarkdown fl.useStdIn fl.markdownMsg goos stdin
  if fl.showVersion then (RunResult.exit0, [])
  else if fl.deleteMessageId.length > 0 then
    match deleteMessage fl.deleteMessageId w with
    | (FnResult.ok _, calls, _) => (RunResult.exit0, calls)
    | (_, calls, _) => (RunResult.fatal, calls)
  else
    match getTeamIDByName fl.teamName w with
    | (FnResult.ok teamID, calls1, w1) =>
      (match createRoomAndGetRoom teamID fl.roomName w1 with
       | (FnResult.ok roomID, calls2, w2) =>
         if fl.cardAttachment.length > 0 then
           match createMessageAndAttachmentsToRoom md roomID fl.cardAttachment w2 with
           | (FnResult.ok _, calls3, _) => (RunResult.exit0, calls1 ++ calls2 ++ calls3)
           | (_, calls3, _) => (RunResult.fatal, calls1 ++ calls2 ++ calls3)
         else if fl.uploadFile.length > 0 then
           match createMessageAndUploadToRoom md roomID fl.uploadFile fs w2 with
           | (FnResult.ok _, calls3, _) => (RunResult.finished, calls1 ++ calls2 ++ calls3)
           | (_, calls3, _) => (RunResult.fatal, calls1 ++ calls2 ++ calls3)
         else
           match createMessageToRoom md roomID w2 with
           | (FnResult.ok _, calls3, _) => (RunResult.finished, calls1 ++ calls2 ++ calls3)
           | (_, calls3, _) => (RunResult.fatal, calls1 ++ calls2 ++ calls3)
       | (_, calls2, _) => (RunResult.fatal, calls1 ++ calls2))
    | (_, calls1, _) => (RunResult.fatal, calls1)

/-! ## A JSON reader for concrete request-body strings

Used to state that concrete bodies the program builds are well-formed
JSON with the expected fields.  The grammar is standard JSON restricted
to integer numerals and the simple string escapes, which covers every
body in scope; it accepts no trailing commas and requires the whole
input to be consumed. -/

/-- JSON insignificant whitespace. -/
def isJsonWs (c : Char) : Bool := c = ' ' || c = '\n' || c = '\t' || c = '\r'

/-- Drop leading JSON whitespace. -/
def skipWs : List Char → List Char
  | [] => []
  | c :: cs => if isJsonWs c then skipWs cs else c :: cs

/-- The simple string escapes. -/
def escapeChar? (c : Char) : Option Char :=
  if c = '"' then some '"'
  else if c = '\\' then some '\\'
  else if c = '/' then some '/'
  else if c = 'n' then some '\n'
  else if c = 't' then some '\t'
  else if c = 'r' then some '\r'
  else none

/-- Read a string literal body up to the closing quote (opening quote
already consumed); yields the unescaped characters and the rest. -/
def parseStrBody : List Char → Option (List Char × List Char)
  | [] => none
  | c :: cs =>
    if c = '"' then some ([], cs)
    else if c = '\\' then
      match cs with
      | [] => none
      | e :: cs' =>
        match escapeChar? e with
        | none => none
        | some ch =>
          match parseStrBody cs' with
          | none => none
          | some (s, r) => some (ch :: s, r)
    else
      match parseStrBody cs with
      | none => none
      | some (s, r) => some (c :: s, r)

/-- Longest digit run at the front. -/
def takeDigits : List Char → List Char × List Char
  | [] => ([], [])
  | c :: cs =>
    if c.isDigit then
      let r := takeDigits cs
      (c :: r.1, r.2)
    else ([], c :: cs)

/-- Value of a digit run. -/
def digitsVal (l : List Char) : Nat :=
  l.foldl (fun acc c => acc * 10 + (c.toNat - '0'.toNat)) 0

/-- Integer numeral after an optional leading minus sign. -/
def parseNumAfter (neg : Bool) (s : List Char) : Option (Json × List Char) :=
  let d := takeDigits s
  if d.1.isEmpty then none
  else some (Json.num (if neg then -(digitsVal d.1 : Int) else (digitsVal d.1 : Int)), d.2)

mutual

/-- Read one JSON value. -/
def parseVal (fuel : Nat) (s : List Char) : Option (Json × List Char) :=
  match fuel with
  | 0 => none
  | fuel' + 1 =>
    match skipWs s with
    | 'n' :: 'u' :: 'l' :: 'l' :: r => some (Json.null, r)
    | 't' :: 'r' :: 'u' :: 'e' :: r => some (Json.bool true, r)
    | 'f' :: 'a' :: 'l' :: 's' :: 'e' :: r => some (Json.bool false, r)
    | '"' :: r =>
      match parseStrBody r with
      | none => none
      | some (cs, r') => some (Json.str (String.mk cs), r')
    | '[' :: r =>
      match parseArrItems fuel' true r with
      | none => none
      | some (vs, r') => some (Json.arr vs, r')
    | '\x7b' :: r =>
      match parseObjItems fuel' true r with
      | none => none
      | some (fs, r') => some (Json.obj fs, r')
    | '-' :: r => parseNumAfter true r
    | c :: r => if c.isDigit then parseNumAfter false (c :: r) else none
    | [] => none

/-- Read array items up to the closing bracket (`first` allows the
immediately-empty array only). -/
def parseArrItems (fuel : Nat) (first : Bool) (s : List Char) :
    Option (List Json × List Char) :=
  match fuel with
  | 0 => none
  | fuel' + 1 =>
    match skipWs s with
    | ']' :: r => if first then some ([], r) else none
    | s' =>
      match parseVal fuel' s' with
      | none => none
      | some (v, r) =>
        match skipWs r with
        | ',' :: r' =>
          match parseArrItems fuel' false r' with
          | none => none
          | some (vs, rr) => some (v :: vs, rr)
        | ']' :: r' => some ([v], r')
        | _ => none

/-- Read object members up to the closing brace. -/
def parseObjItems (fuel : Nat) (first : Bool) (s : List Char) :
    Option (List (String × Json) × List Char) :=
  match fuel with
  | 0 => none
  | fuel' + 1 =>
    match skipWs s with
    | '\x7d' :: r => if first then some ([], r) else none
    | '"' :: r =>
      match parseStrBody r with
      | none => none
      | some (k, r1) =>
        match skipWs r1 with
        | ':' :: r2 =>
          match parseVal fuel' r2 with
          | none => none
          | some (v, r3) =>
            match skipWs r3 with
            | ',' :: r4 =>
              match parseObjItems fuel' false r4 with
              | none => none
              | some (fs, rr) => some ((String.mk k, v) :: fs, rr)
            | '\x7d' :: r4 => some ([(String.mk k, v)], r4)
            | _ => none
        | _ => none
    | _ => none

end

/-- Read a whole string as one JSON value (trailing whitespace allowed,
nothing else may remain). -/
def parseJsonStr (s : String) : Option Json :=
  match parseVal (2 * s.length + 2) s.data with
  | some (v, r) => if skipWs r = [] then some v else none
  | none => none

/-! ## Helper lemmas on the call traces -/

/-- The team-lookup call of `getTeamIDByName`. -/
def teamListCall : HttpCall := ⟨"GET", roomsURL, [("type", "group")], ReqBody.empty⟩

/-- The per-team room-listing call of `createRoomAndGetRoom`. -/
def roomListCall (teamID : String) : HttpCall :=
  ⟨"GET", roomsURL, [("teamId", teamID), ("type", "group")], ReqBody.empty⟩

/-- The room-creation call of `createRoom`. -/
def roomCreateCall (teamID roomTitle : String) : HttpCall :=
  ⟨"POST", roomsURL, [], ReqBody.jsonBody (newSparkRoomJSON teamID roomTitle)⟩

/-- The deletion call of `deleteMessage`. -/
def deleteCall (messageID : String) : HttpCall :=
  ⟨"DELETE", messagesURL ++ "/" ++ messageID, [], ReqBody.empty⟩

theorem deleteMessage_calls (mid : String) (w : List NetResult) :
    (deleteMessage mid w).2.1 = [deleteCall mid] := by
  unfold deleteMessage
  cases w with
  | nil => rfl
  | cons r w' => cases r <;> rfl

theorem getTeamIDByName_calls (name : String) (w : List NetResult) :
    (getTeamIDByName name w).2.1 = [teamListCall] := by
  unfold getTeamIDByName
  cases w with
  | nil => rfl
  | cons r w' =>
    cases r with
    | transportError => rfl
    | ok st body =>
      simp only [takeResp]
      rcases hdec : decodeRoomsResp body with _ | items
      · simp [hdec, teamListCall]
      · rcases hf : items.find? (fun v => v.title == name) with _ | v <;>
          simp [hdec, hf, teamListCall]

theorem createRoomAndGetRoom_calls_head (teamID name : String) (w : List NetResult) :
    ∃ tail, (createRoomAndGetRoom teamID name w).2.1 = roomListCall teamID :: tail := by
  unfold createRoomAndGetRoom
  cases w with
  | nil => exact ⟨[], rfl⟩
  | cons r w' =>
    cases r with
    | transportError => exact ⟨[], rfl⟩
    | ok st body =>
      simp only [takeResp]
      rcases hdec : decodeRoomsResp body with _ | items
      · exact ⟨[], by simp [hdec, roomListCall]⟩
      · rcases hf : items.find? (fun v => v.title == name) with _ | v
        · rcases h : createRoom name teamID w' with ⟨out, calls, w2⟩
          cases out <;> simp [hdec, hf, h, roomListCall]
        · exact ⟨[], by simp [hdec, hf, roomListCall]⟩

theorem createMessageAndUploadToRoom_calls (md rid up : String)
    (fs : String → Option String) (w : List NetResult) :
    (createMessageAndUploadToRoom md rid up fs w).2.1 =
      [⟨"POST", messagesURL, [],
        ReqBody.multipartBody
          (newfileUploadRequest messagesURL
            [("roomId", rid), ("markdown", md), ("roomType", "group")] "files" up fs).data⟩] := by
  unfold createMessageAndUploadToRoom
  cases w with
  | nil => rfl
  | cons r w' =>
    cases r with
    | transportError => rfl
    | ok st body =>
      simp only [takeResp]
      rcases hdec : decodeMessage body with _ | m <;> simp [hdec, newfileUploadRequest]

/-! ## Claim C1 -/

/-- C1: whenever `-d` carries a non-empty message id (and `-V` is not
given, which would exit first), the whole run issues exactly one call:
the DELETE on `messagesURL/<id>`.  No team lookup, room listing, room
creation or message creation appears in the trace, whatever the other
flags, the standard input, the file system and the network responses are. -/
theorem claim_C1 (fl : Flags) (goos stdin : String) (fs : String → Option String)
    (w : List NetResult) (hV : fl.showVersion = false)
    (hd : fl.deleteMessageId.length > 0) :
    (mainRun fl goos stdin fs w).2 = [deleteCall fl.deleteMessageId] := by
  unfold mainRun
  rw [if_neg (by simp [hV]), if_pos hd]
  rcases h : deleteMessage fl.deleteMessageId w with ⟨out, calls, w'⟩
  have hc := deleteMessage_calls fl.deleteMessageId w
  rw [h] at hc
  simp only at hc
  cases out <;> simp [h, hc]

/-- Witness for C1: a concrete invocation carrying `-d M1` together with
`-t`, `-r`, `-m`, `-f` and `-a` values issues exactly the one DELETE. -/
theorem claim_C1_witness :
    ({ deleteMessageId := "M1", teamName := "T1", roomName := "R1", markdownMsg := "x",
       uploadFile := "f.png", cardAttachment := "card" : Flags }.showVersion = false)
    ∧ ({ deleteMessageId := "M1", teamName := "T1", roomName := "R1", markdownMsg := "x",
         uploadFile := "f.png", cardAttachment := "card" : Flags }.deleteMessageId.length > 0)
    ∧ (mainRun
        { deleteMessageId := "M1", teamName := "T1", roomName := "R1", markdownMsg := "x",
          uploadFile := "f.png", cardAttachment := "card" : Flags }
        "linux" "" (fun _ => none) [NetResult.ok 200 none]).2 = [deleteCall "M1"] :=
  ⟨rfl, by decide,
   claim_C1 _ "linux" "" (fun _ => none) [NetResult.ok 200 none] rfl (by decide)⟩

/-! ## Claim C2 -/

/-- C2 as stated is false: on a non-darwin system with `-i` and standard
input `"line1\nline2\n"`, even with an empty `-m`, the assembled body is
not `"line1\nline2\n"` (each chunk keeps its own newline and gains
another, and the final EOF read appends one more). -/
theorem claim_C2_counterexample :
    assembleMarkdown true "" "linux" "line1\nline2\n" ≠ "line1\nline2\n" := by decide

/-- C2 amended: with `-i` and standard input `"line1\n"`, `"line2\n"` on a
non-darwin system, the assembled body is the `-m` value followed by
`"line1\n\nline2\n\n\n"` — the `-m` value is kept as a prefix (the loop
appends to the global `markdownMsg`), each input line keeps its `"\n"` and
gains another, and the EOF read contributes a final `"\n"`. -/
theorem claim_C2_amended (m : String) :
    assembleMarkdown true m "linux" "line1\nline2\n" = m ++ "line1\n\nline2\n\n\n" := by
  simp only [assembleMarkdown, stdinLoopF, readString, trimGoSuffix, lineSeparator]
  rcases m with ⟨data⟩
  show String.mk _ = String.mk _
  congr 1
  simp [List.append_assoc]
  decide

/-! ## Claim C4 -/

/-- C4 as stated is false: `init` registers no `-D` flag at all, so no
invocation can carry a direct-message recipient. -/
theorem claim_C4_counterexample : ¬ ("D" ∈ registeredFlags.map Prod.fst) := by decide

/-- C4 amended: the registered flags are exactly `-T -t -r -f -m -p -d -a
-V -i`; there is no `-D` direct-recipient flag, and messages are addressed
only through the team/room resolution path. -/
theorem claim_C4_amended :
    registeredFlags.map Prod.fst = ["T", "t", "r", "f", "m", "p", "d", "a", "V", "i"]
    ∧ ¬ ("D" ∈ registeredFlags.map Prod.fst) := by decide

/-! ## Claim C5 -/

/-- C5: when the group-room listing decodes to items none of whose titles
equals the team name, the run aborts fatally right after the one
team-lookup call: the trace is exactly `[teamListCall]`, so no per-team
room listing, room creation or message creation is ever issued. -/
theorem claim_C5 (fl : Flags) (goos stdin : String) (fs : String → Option String)
    (st : Nat) (body : Option Json) (rest : List NetResult) (items : List RoomItem)
    (hV : fl.showVersion = false) (hd : fl.deleteMessageId.length = 0)
    (hdec : decodeRoomsResp body = some items)
    (hno : ∀ v ∈ items, v.title ≠ fl.teamName) :
    mainRun fl goos stdin fs (NetResult.ok st body :: rest) =
      (RunResult.fatal, [teamListCall]) := by
  have hfind : items.find? (fun v => v.title == fl.teamName) = none := by
    rw [List.find?_eq_none]
    intro v hv
    simpa using hno v hv
  have hteam : getTeamIDByName fl.teamName (NetResult.ok st body :: rest) =
      (FnResult.err ("No room with name: " ++ fl.teamName ++ " was found\n"),
        [teamListCall], rest) := by
    unfold getTeamIDByName
    simp [takeResp, hdec, hfind, teamListCall]
  unfold mainRun
  rw [if_neg (by simp [hV]), if_neg (by simp [hd]), hteam]

/-- The team listing used in the C5 witness: one group room titled
`Other`, so a lookup of team `T1` finds no match. -/
def c5Body : Option Json :=
  some (Json.obj [("items", Json.arr
    [Json.obj [("title", Json.str "Other"), ("teamId", Json.str "X")]])])

/-- Witness for C5 at the concrete team name `T1`. -/
theorem claim_C5_witness :
    decodeRoomsResp c5Body = some [({ id := "", title := "Other", teamID := "X" } : RoomItem)]
    ∧ (∀ v ∈ [({ id := "", title := "Other", teamID := "X" } : RoomItem)],
        v.title ≠ ({ teamName := "T1" : Flags }).teamName)
    ∧ mainRun { teamName := "T1" : Flags } "linux" "" (fun _ => none)
        [NetResult.ok 200 c5Body] = (RunResult.fatal, [teamListCall]) :=
  ⟨by decide, by decide,
   claim_C5 { teamName := "T1" } "linux" "" (fun _ => none) 200 c5Body []
     [{ id := "", title := "Other", teamID := "X" }] rfl rfl (by decide) (by decide)⟩

/-! ## Claim C6 -/

/-- C6: for a decoded per-team room listing: when some item's title equals
the room name, `createRoomAndGetRoom` returns the first such item's id
after the one listing call, issuing no creation call; when no item
matches, it issues exactly one creation call (POST of the requested title
under the team) and returns the id decoded from the creation response. -/
theorem claim_C6 (teamID name : String) (st : Nat) (body : Option Json)
    (items : List RoomItem) (hdec : decodeRoomsResp body = some items) :
    (∀ rest v, items.find? (fun x => x.title == name) = some v →
      createRoomAndGetRoom teamID name (NetResult.ok st body :: rest) =
        (FnResult.ok v.id, [roomListCall teamID], rest))
    ∧ (∀ rest st2 body2 rid, items.find? (fun x => x.title == name) = none →
        decodeSparkRoomId body2 = some rid →
        createRoomAndGetRoom teamID name
            (NetResult.ok st body :: NetResult.ok st2 body2 :: rest) =
          (FnResult.ok rid, [roomListCall teamID, roomCreateCall teamID name], rest)) := by
  constructor
  · intro rest v hf
    unfold createRoomAndGetRoom
    simp [takeResp, hdec, hf, roomListCall]
  · intro rest st2 body2 rid hf hdec2
    unfold createRoomAndGetRoom createRoom
    simp [takeResp, hdec, hf, hdec2, roomListCall, roomCreateCall]

/-- The per-team listing used in the C6 witness: one room `R1` with id
`RID`. -/
def c6ListBody : Option Json :=
  some (Json.obj [("items", Json.arr
    [Json.obj [("id", Json.str "RID"), ("title", Json.str "R1")]])])

/-- The creation response used in the C6 witness: the created room has id
`NEWID`. -/
def c6CreatedBody : Option Json := some (Json.obj [("id", Json.str "NEWID")])

/-- Witness for C6: room `R1` is found in the listing and resolution
returns `RID` with no creation call; room `R2` is absent and resolution
issues the one creation call and returns `NEWID`. -/
theorem claim_C6_witness :
    decodeRoomsResp c6ListBody = some [⟨"RID", "R1", ""⟩]
    ∧ [(⟨"RID", "R1", ""⟩ : RoomItem)].find? (fun x => x.title == "R1") = some ⟨"RID", "R1", ""⟩
    ∧ createRoomAndGetRoom "TID" "R1" [NetResult.ok 200 c6ListBody] =
        (FnResult.ok "RID", [roomListCall "TID"], [])
    ∧ [(⟨"RID", "R1", ""⟩ : RoomItem)].find? (fun x => x.title == "R2") = none
    ∧ decodeSparkRoomId c6CreatedBody = some "NEWID"
    ∧ createRoomAndGetRoom "TID" "R2" [NetResult.ok 200 c6ListBody, NetResult.ok 200 c6CreatedBody] =
        (FnResult.ok "NEWID", [roomListCall "TID", roomCreateCall "TID" "R2"], []) :=
  ⟨by decide, by decide,
   (claim_C6 "TID" "R1" 200 c6ListBody [⟨"RID", "R1", ""⟩] (by decide)).1 [] ⟨"RID", "R1", ""⟩ (by decide),
   by decide, by decide,
   (claim_C6 "TID" "R2" 200 c6ListBody [⟨"RID", "R1", ""⟩] (by decide)).2 [] 200 c6CreatedBody "NEWID"
     (by decide) (by decide)⟩

/-! ## Claim C3 -/

/-- C3 as stated is false.  A concrete run with `-f up.png` where the file
does not exist (`os.Open` fails on every path) still completes the whole
sequence: team lookup, room listing, and the multipart POST to the
messages endpoint — with an empty file part and `openFailed` recorded.
The open error is only `log.Println`-ed inside `newfileUploadRequest` and
never returned, so the network call is issued anyway. -/
def c3TeamList : Option Json :=
  some (Json.obj [("items", Json.arr
    [Json.obj [("title", Json.str "T1"), ("teamId", Json.str "TID")]])])

/-- Per-team listing for the C3 run: room `R1` exists with id `RID`. -/
def c3RoomList : Option Json :=
  some (Json.obj [("items", Json.arr
    [Json.obj [("id", Json.str "RID"), ("title", Json.str "R1")]])])

/-- Message-creation response for the C3 run. -/
def c3MsgBody : Option Json := some (Json.obj [("id", Json.str "MID")])

/-- Flags of the C3 run: upload `up.png` with message `m` to room `R1` of
team `T1`. -/
def c3Flags : Flags :=
  { teamName := "T1", roomName := "R1", uploadFile := "up.png", markdownMsg := "m" }

/-- Counterexample to C3: with a file system on which every open fails,
the run still ends with a POST to the messages endpoint (third call of
the trace), refuting "no POST to the messages endpoint is performed". -/
theorem claim_C3_counterexample :
    ((fun _ => (none : Option String)) "up.png" = none)
    ∧ mainRun c3Flags "linux" "" (fun _ => none)
        [NetResult.ok 200 c3TeamList, NetResult.ok 200 c3RoomList, NetResult.ok 200 c3MsgBody] =
      (RunResult.finished,
       [teamListCall, roomListCall "TID",
        ⟨"POST", messagesURL, [], ReqBody.multipartBody
          { fileHeader := createPngFormFile "files" "up.png", fileContent := "",
            fields := [("roomId", "RID"), ("markdown", "m"), ("roomType", "group")],
            openFailed := true }⟩]) := ⟨rfl, by decide⟩

/-- C3 amended: when `os.Open` fails for the upload path, the error is
only logged; `newfileUploadRequest` still returns a request whose file
part has empty content, and the upload dispatch still issues exactly its
one POST to the messages endpoint carrying that empty file part. -/
theorem claim_C3_amended (uri md roomID path fieldname : String)
    (params : List (String × String)) (fs : String → Option String)
    (w : List NetResult) (h : fs path = none) :
    (newfileUploadRequest uri params fieldname path fs).data.openFailed = true
    ∧ (newfileUploadRequest uri params fieldname path fs).data.fileContent = ""
    ∧ (createMessageAndUploadToRoom md roomID path fs w).2.1 =
      [⟨"POST", messagesURL, [], ReqBody.multipartBody
        { fileHeader := createPngFormFile "files" path, fileContent := "",
          fields := [("roomId", roomID), ("markdown", md), ("roomType", "group")],
          openFailed := true }⟩] := by
  refine ⟨by simp [newfileUploadRequest, h], by simp [newfileUploadRequest, h], ?_⟩
  rw [createMessageAndUploadToRoom_calls]
  simp [newfileUploadRequest, h]

/-- Witness for the amended C3 at concrete inputs. -/
theorem claim_C3_amended_witness :
    ((fun _ => (none : Option String)) "up.png" = none)
    ∧ (newfileUploadRequest messagesURL [] "files" "up.png" (fun _ => none)).data.openFailed = true
    ∧ (newfileUploadRequest messagesURL [] "files" "up.png" (fun _ => none)).data.fileContent = ""
    ∧ (createMessageAndUploadToRoom "m" "RID" "up.png" (fun _ => none) []).2.1 =
      [⟨"POST", messagesURL, [], ReqBody.multipartBody
        { fileHeader := createPngFormFile "files" "up.png", fileContent := "",
          fields := [("roomId", "RID"), ("markdown", "m"), ("roomType", "group")],
          openFailed := true }⟩] :=
  ⟨rfl,
   (claim_C3_amended messagesURL "m" "RID" "up.png" "files" [] (fun _ => none) [] rfl).1,
   (claim_C3_amended messagesURL "m" "RID" "up.png" "files" [] (fun _ => none) [] rfl).2.1,
   (claim_C3_amended messagesURL "m" "RID" "up.png" "files" [] (fun _ => none) [] rfl).2.2⟩

/-! ## Claim C7 -/

/-- A representative card-attachment payload (shortened from the example
in the source header comment). -/
def c7Card : String :=
  "\x7b\"contentType\": \"application/vnd.microsoft.card.adaptive\", \"content\": \x7b\"type\": \"AdaptiveCard\", \"version\": \"1.0\"\x7d\x7d"

/-- The JSON value of `c7Card`. -/
def c7CardJson : Json :=
  Json.obj [("contentType", Json.str "application/vnd.microsoft.card.adaptive"),
            ("content", Json.obj [("type", Json.str "AdaptiveCard"), ("version", Json.str "1.0")])]

set_option maxRecDepth 100000 in
/-- C7: the body built for `-m "hello"`, room id `R1` and an `-a` payload
is the fixed JSON template with the payload spliced in verbatim and
uninterpreted (first conjunct, for every payload string); and for the
representative card payload the result is well-formed JSON whose
`roomId` is `"R1"`, whose `markdown` is `"hello"`, and whose
`attachments` is the one-element array holding exactly the parsed
payload (remaining conjuncts). -/
theorem claim_C7 :
    (∀ attachment : String,
      createMessageAndAttachmentsBody "hello" "R1" attachment =
        "\x7b\"roomId\": \"R1\", \"markdown\": \"hello\", \"attachments\": [" ++ attachment ++ "]\x7d")
    ∧ parseJsonStr c7Card = some c7CardJson
    ∧ parseJsonStr (createMessageAndAttachmentsBody "hello" "R1" c7Card) =
        some (Json.obj [("roomId", Json.str "R1"), ("markdown", Json.str "hello"),
                        ("attachments", Json.arr [c7CardJson])]) := by
  refine ⟨fun attachment => ?_, by rfl, by rfl⟩
  simp only [createMessageAndAttachmentsBody]
  rcases attachment with ⟨d⟩
  show String.mk _ = String.mk _
  congr 1

/-! ## Claim C8 -/

/-- C8 as stated is false for the deletion operation: `deleteMessage`
never parses the response body, so it reports success on a response whose
body is not a `Message` record at all (here: an unparseable empty 204
body), while every unmarshal of that body would fail. -/
theorem claim_C8_counterexample :
    (deleteMessage "M1" [NetResult.ok 204 none]).1 = FnResult.ok ()
    ∧ decodeMessage none = none := ⟨rfl, rfl⟩

/-- C8 amended: the three message-creation operations report success
(returning the empty string, never the created `Message`) exactly when
the HTTP call returns without transport error and the response body
unmarshals into a `Message` record, independent of the status code; a
failed unmarshal aborts fatally, and a transport error aborts fatally
for the upload variant and is returned by the other two.  `deleteMessage`
reports success whenever the HTTP call returns without transport error,
without parsing the body at all. -/
theorem claim_C8_amended :
    (∀ md rid att st body w,
      (createMessageAndAttachmentsToRoom md rid att (NetResult.ok st body :: w)).1 =
        (match decodeMessage body with
         | none => FnResult.fatal
         | some _ => FnResult.ok "")
      ∧ (createMessageAndAttachmentsToRoom md rid att (NetResult.transportError :: w)).1 =
          FnResult.err "request error")
    ∧ (∀ mt rid st body w,
      (createMessageToRoom mt rid (NetResult.ok st body :: w)).1 =
        (match decodeMessage body with
         | none => FnResult.fatal
         | some _ => FnResult.ok "")
      ∧ (createMessageToRoom mt rid (NetResult.transportError :: w)).1 =
          FnResult.err "request error")
    ∧ (∀ md rid up fs st body w,
      (createMessageAndUploadToRoom md rid up fs (NetResult.ok st body :: w)).1 =
        (match decodeMessage body with
         | none => FnResult.fatal
         | some _ => FnResult.ok "")
      ∧ (createMessageAndUploadToRoom md rid up fs (NetResult.transportError :: w)).1 =
          FnResult.fatal)
    ∧ (∀ mid st body w, (deleteMessage mid (NetResult.ok st body :: w)).1 = FnResult.ok ())
    ∧ (∀ mid w, (deleteMessage mid (NetResult.transportError :: w)).1 =
        FnResult.err "request error") := by
  refine ⟨fun md rid att st body w => ⟨?_, rfl⟩,
          fun mt rid st body w => ⟨?_, rfl⟩,
          fun md rid up fs st body w => ⟨?_, rfl⟩,
          fun mid st body w => rfl, fun mid w => rfl⟩ <;>
    rcases h : decodeMessage body with _ | m <;>
      simp [createMessageAndAttachmentsToRoom, createMessageToRoom,
            createMessageAndUploadToRoom, takeResp, h]

/-! ## Claim C9 -/

/-- C9: the multipart file part always carries a `Content-Disposition`
whose `filename` is the full caller-supplied path string spliced in
verbatim (never its base name) and a hard-coded `Content-Type` of
`image/png;`, for every field name, path and file system; and the upload
dispatch builds its one POST with exactly that header. -/
theorem claim_C9 (fieldname path uri md rid : String)
    (params : List (String × String)) (fs : String → Option String)
    (w : List NetResult) :
    createPngFormFile fieldname path =
      [("Content-Disposition",
        "form-data; name=\"" ++ fieldname ++ "\"; filename=\"" ++ path ++ "\""),
       ("Content-Type", "image/png;")]
    ∧ (newfileUploadRequest uri params fieldname path fs).data.fileHeader =
        createPngFormFile fieldname path
    ∧ (createMessageAndUploadToRoom md rid path fs w).2.1 =
      [⟨"POST", messagesURL, [], ReqBody.multipartBody
        { fileHeader := createPngFormFile "files" path,
          fileContent := (fs path).getD "",
          fields := [("roomId", rid), ("markdown", md), ("roomType", "group")],
          openFailed := (fs path).isNone }⟩] := by
  refine ⟨rfl, rfl, ?_⟩
  rw [createMessageAndUploadToRoom_calls]
  simp [newfileUploadRequest]

/-! ## Claim C10 -/

theorem mainRun_trace_after_team (fl : Flags) (goos stdin : String)
    (fs : String → Option String) (w : List NetResult)
    (teamID : String) (calls1 : List HttpCall) (w1 : List NetResult)
    (hV : fl.showVersion = false) (hd : fl.deleteMessageId.length = 0)
    (hteam : getTeamIDByName fl.teamName w = (FnResult.ok teamID, calls1, w1)) :
    ∃ tail, (mainRun fl goos stdin fs w).2 = calls1 ++ roomListCall teamID :: tail := by
  unfold mainRun
  rw [if_neg (by simp [hV]), if_neg (by simp [hd]), hteam]
  obtain ⟨t2, h2⟩ := createRoomAndGetRoom_calls_head teamID fl.roomName w1
  rcases hcr : createRoomAndGetRoom teamID fl.roomName w1 with ⟨out, calls2, w2⟩
  rw [hcr] at h2
  simp only at h2
  cases out with
  | fatal => exact ⟨t2, by simp [hcr, h2]⟩
  | err e => exact ⟨t2, by simp [hcr, h2]⟩
  | ok roomID =>
    simp only [hcr]
    by_cases hca : fl.cardAttachment.length > 0
    · rw [if_pos hca]
      rcases h3 : createMessageAndAttachmentsToRoom
          (assembleMarkdown fl.useStdIn fl.markdownMsg goos stdin) roomID fl.cardAttachment w2
        with ⟨out3, calls3, w3⟩
      cases out3 <;> exact ⟨t2 ++ calls3, by simp [h3, h2]⟩
    · rw [if_neg hca]
      by_cases hup : fl.uploadFile.length > 0
      · rw [if_pos hup]
        rcases h3 : createMessageAndUploadToRoom
            (assembleMarkdown fl.useStdIn fl.markdownMsg goos stdin) roomID fl.uploadFile fs w2
          with ⟨out3, calls3, w3⟩
        cases out3 <;> exact ⟨t2 ++ calls3, by simp [h3, h2]⟩
      · rw [if_neg hup]
        rcases h3 : createMessageToRoom
            (assembleMarkdown fl.useStdIn fl.markdownMsg goos stdin) roomID w2
          with ⟨out3, calls3, w3⟩
        cases out3 <;> exact ⟨t2 ++ calls3, by simp [h3, h2]⟩

/-- C10: when the first group-room item whose title equals the team name
carries an empty `teamId`, `getTeamIDByName` returns `""` with no error,
and the run proceeds to issue the per-team room listing with an empty
`teamId` query value as its second call. -/
theorem claim_C10 (fl : Flags) (goos stdin : String) (fs : String → Option String)
    (st : Nat) (body : Option Json) (rest : List NetResult)
    (items : List RoomItem) (v : RoomItem)
    (hV : fl.showVersion = false) (hd : fl.deleteMessageId.length = 0)
    (hdec : decodeRoomsResp body = some items)
    (hfind : items.find? (fun x => x.title == fl.teamName) = some v)
    (hteam : v.teamID = "") :
    getTeamIDByName fl.teamName (NetResult.ok st body :: rest) =
      (FnResult.ok "", [teamListCall], rest)
    ∧ ∃ tail, (mainRun fl goos stdin fs (NetResult.ok st body :: rest)).2 =
        teamListCall :: roomListCall "" :: tail := by
  have h1 : getTeamIDByName fl.teamName (NetResult.ok st body :: rest) =
      (FnResult.ok "", [teamListCall], rest) := by
    unfold getTeamIDByName
    simp [takeResp, hdec, hfind, hteam, teamListCall]
  refine ⟨h1, ?_⟩
  obtain ⟨tail, ht⟩ :=
    mainRun_trace_after_team fl goos stdin fs (NetResult.ok st body :: rest)
      "" [teamListCall] rest hV hd h1
  exact ⟨tail, by simpa using ht⟩

/-- The group-room listing of the C10 witness: the first (and only) item
titled `T1` has an empty `teamId`. -/
def c10Body : Option Json :=
  some (Json.obj [("items", Json.arr [Json.obj [("title", Json.str "T1")]])])

/-- Witness for C10 at a concrete listing whose matching item has no team
identifier. -/
theorem claim_C10_witness :
    decodeRoomsResp c10Body = some [({ id := "", title := "T1", teamID := "" } : RoomItem)]
    ∧ [({ id := "", title := "T1", teamID := "" } : RoomItem)].find?
        (fun x => x.title == ({ teamName := "T1" : Flags }).teamName) =
        some { id := "", title := "T1", teamID := "" }
    ∧ getTeamIDByName ({ teamName := "T1" : Flags }).teamName [NetResult.ok 200 c10Body] =
        (FnResult.ok "", [teamListCall], [])
    ∧ ∃ tail, (mainRun { teamName := "T1" : Flags } "linux" "" (fun _ => none)
        [NetResult.ok 200 c10Body]).2 = teamListCall :: roomListCall "" :: tail :=
  ⟨by decide, by decide,
   (claim_C10 { teamName := "T1" } "linux" "" (fun _ => none) 200 c10Body []
     [{ id := "", title := "T1", teamID := "" }] { id := "", title := "T1", teamID := "" }
     rfl rfl (by decide) (by decide) rfl).1,
   (claim_C10 { teamName := "T1" } "linux" "" (fun _ => none) 200 c10Body []
     [{ id := "", title := "T1", teamID := "" }] { id := "", title := "T1", teamID := "" }
     rfl rfl (by decide) (by decide) rfl).2⟩

end Webex
